import Mathlib

/-!
Verification of the steel-tui console core: the bounded scrollback buffer
(`src/logger/line_history.rs`), the log ingestion writer (`src/logger/mod.rs`),
the key/paste/interrupt handling and the render step (`src/lib.rs`), and the
shutdown drain order (`SteelApp::start_server`).

Lines of the scrollback are abstracted to their text content: the buffer logic
(`Text::extend` / `Vec::drain`) never inspects styles, only the list of lines.
-/

/-- A rendered line of the scrollback buffer (ratatui `Line`), abstracted to its
text content: the buffer operations treat lines as opaque values. -/
abbrev Line := String

/-- `LineHistory::MAX_HISTORY` from `src/logger/line_history.rs`. -/
def LineHistory.MAX_HISTORY : Nat := 1000

/-- `LineHistory::push` from `src/logger/line_history.rs`, with the hard-coded
`MAX_HISTORY` constant generalised to a parameter `cap` (the source instantiates
it at 1000, see `LineHistory.push`): `self.text.extend(text)` appends the new
lines, then `drain(0 .. len.saturating_sub(cap))` removes lines from the front.
`Nat` subtraction is truncating, exactly like `usize::saturating_sub`. -/
def LineHistory.pushWithCap (cap : Nat) (hist text : List Line) : List Line :=
  let extended := hist ++ text
  extended.drop (extended.length - cap)

/-- `LineHistory::push` from `src/logger/line_history.rs` (capacity fixed at
`MAX_HISTORY = 1000`). -/
def LineHistory.push (hist text : List Line) : List Line :=
  LineHistory.pushWithCap LineHistory.MAX_HISTORY hist text

/-- `LineHistory::new`: the buffer starts empty (`Text::default()`). -/
def LineHistory.new : List Line := []

/-- Folding a whole sequence of pushes over an initially empty buffer. -/
def LineHistory.pushAll (pushes : List (List Line)) : List Line :=
  pushes.foldl LineHistory.push LineHistory.new

/-- The newest `cap` lines of a list (its suffix of length at most `cap`). -/
def lastCap (cap : Nat) (l : List Line) : List Line :=
  l.drop (l.length - cap)

theorem lastCap_length_le (cap : Nat) (l : List Line) :
    (lastCap cap l).length ≤ cap := by
  simp only [lastCap, List.length_drop]
  omega

theorem lastCap_of_le (cap : Nat) (l : List Line) (h : l.length ≤ cap) :
    lastCap cap l = l := by
  have hz : l.length - cap = 0 := by omega
  simp [lastCap, hz]

theorem drop_append_left (a t : List Line) (k : Nat) (hk : k ≤ a.length) :
    (a ++ t).drop k = a.drop k ++ t := by
  rw [List.drop_append_of_le_length hk]

theorem pushWithCap_lastCap (cap : Nat) (a t : List Line) :
    LineHistory.pushWithCap cap (lastCap cap a) t = lastCap cap (a ++ t) := by
  simp only [LineHistory.pushWithCap, lastCap]
  rw [← drop_append_left a t (a.length - cap) (by omega)]
  rw [List.drop_drop]
  congr 1
  simp only [List.length_drop, List.length_append]
  omega

theorem foldl_pushWithCap (cap : Nat) (P : List (List Line)) :
    ∀ a : List Line,
      P.foldl (LineHistory.pushWithCap cap) (lastCap cap a) =
        lastCap cap (a ++ P.flatten) := by
  induction P with
  | nil => intro a; simp
  | cons t P ih =>
      intro a
      simp only [List.foldl_cons, List.flatten_cons]
      rw [pushWithCap_lastCap, ih (a ++ t), List.append_assoc]

theorem pushAll_eq_lastCap (P : List (List Line)) :
    LineHistory.pushAll P = lastCap LineHistory.MAX_HISTORY P.flatten := by
  have h := foldl_pushWithCap LineHistory.MAX_HISTORY P []
  have hpush : LineHistory.push = LineHistory.pushWithCap LineHistory.MAX_HISTORY := rfl
  simpa [LineHistory.pushAll, LineHistory.new, hpush, lastCap] using h

theorem flatten_map_singleton (L : List Line) : (L.map fun l => [l]).flatten = L := by
  induction L with
  | nil => rfl
  | cons a L ih => simp [ih]

/-- C1: for every sequence of pushes on an initially empty scrollback buffer,
after each push (hence after the whole sequence) the buffer length never
exceeds `MAX_HISTORY = 1000`, and the buffer content is exactly the newest
suffix of all lines ever appended — the oldest lines are the ones evicted
(FIFO eviction), as `LineHistory::push` drains from the front. -/
theorem push_sequence_bounded_fifo (pushes : List (List Line)) :
    (LineHistory.pushAll pushes).length ≤ LineHistory.MAX_HISTORY ∧
    LineHistory.pushAll pushes =
      pushes.flatten.drop (pushes.flatten.length - LineHistory.MAX_HISTORY) := by
  rw [pushAll_eq_lastCap]
  exact ⟨lastCap_length_le _ _, rfl⟩

/-- C6: appending N ≤ 1000 lines one at a time to an initially empty buffer and
then reading yields exactly those N lines in order; and with the capacity
constant instantiated at 2, pushing "hello" then "world" reads
["hello", "world"], and a further push of "third" reads ["world", "third"]. -/
theorem append_then_read_in_order :
    (∀ L : List Line, L.length ≤ LineHistory.MAX_HISTORY →
      (L.map fun l => [l]).foldl LineHistory.push LineHistory.new = L) ∧
    LineHistory.pushWithCap 2 (LineHistory.pushWithCap 2 [] ["hello"]) ["world"]
      = ["hello", "world"] ∧
    LineHistory.pushWithCap 2
      (LineHistory.pushWithCap 2 (LineHistory.pushWithCap 2 [] ["hello"]) ["world"])
      ["third"]
      = ["world", "third"] := by
  refine ⟨?_, rfl, rfl⟩
  intro L hL
  have h := foldl_pushWithCap LineHistory.MAX_HISTORY (L.map fun l => [l]) []
  have hpush : LineHistory.push = LineHistory.pushWithCap LineHistory.MAX_HISTORY := rfl
  rw [LineHistory.new, hpush]
  simpa [flatten_map_singleton, lastCap_of_le _ _ hL] using h

/-- Witness for C6 at a concrete input: appending ["a", "b"] line by line to the
empty buffer reads back ["a", "b"]. -/
theorem append_then_read_in_order_witness :
    (["a", "b"] : List Line).length ≤ LineHistory.MAX_HISTORY ∧
    ((["a", "b"] : List Line).map fun l => [l]).foldl LineHistory.push
      LineHistory.new = ["a", "b"] :=
  ⟨by decide, append_then_read_in_order.1 ["a", "b"] (by decide)⟩

/-- C10: a single push whose text has more than 1000 lines leaves exactly the
newest 1000 lines of the pushed text, whatever the previous buffer content;
the drain index `len.saturating_sub(MAX_HISTORY)` (truncating `Nat`
subtraction here) never exceeds the buffer length, so the front drain is
always in range and `push` is total. -/
theorem push_overflow_keeps_newest (hist text : List Line)
    (h : LineHistory.MAX_HISTORY < text.length) :
    LineHistory.push hist text =
      text.drop (text.length - LineHistory.MAX_HISTORY) ∧
    (LineHistory.push hist text).length = LineHistory.MAX_HISTORY ∧
    (hist ++ text).length - LineHistory.MAX_HISTORY ≤ (hist ++ text).length := by
  have hidx : hist.length + text.length - LineHistory.MAX_HISTORY
      = hist.length + (text.length - LineHistory.MAX_HISTORY) := by omega
  have h1 : LineHistory.push hist text
      = text.drop (text.length - LineHistory.MAX_HISTORY) := by
    simp only [LineHistory.push, LineHistory.pushWithCap, List.length_append, hidx]
    rw [List.drop_append]
  refine ⟨h1, ?_, by simp⟩
  rw [h1]
  simp only [List.length_drop]
  omega

set_option maxRecDepth 8000 in
/-- Witness for C10 at a concrete input: pushing 1001 copies of "a" onto the
empty buffer keeps the newest 1000 of them. -/
theorem push_overflow_keeps_newest_witness :
    LineHistory.MAX_HISTORY < (List.replicate 1001 ("a" : Line)).length ∧
    (LineHistory.push [] (List.replicate 1001 ("a" : Line)) =
        (List.replicate 1001 ("a" : Line)).drop
          ((List.replicate 1001 ("a" : Line)).length - LineHistory.MAX_HISTORY) ∧
      (LineHistory.push [] (List.replicate 1001 ("a" : Line))).length
        = LineHistory.MAX_HISTORY ∧
      ([] ++ List.replicate 1001 ("a" : Line)).length - LineHistory.MAX_HISTORY
        ≤ ([] ++ List.replicate 1001 ("a" : Line)).length) :=
  ⟨by rw [List.length_replicate]; norm_num [LineHistory.MAX_HISTORY],
    push_overflow_keeps_newest [] (List.replicate 1001 ("a" : Line))
      (by rw [List.length_replicate]; norm_num [LineHistory.MAX_HISTORY])⟩

/-- Modelled from the spec: the input-line editor state of the external
`tui_input` crate — "a mutable text buffer plus a cursor offset" (§3
InputLine). `value` is the typed text, `cursor` a character offset into it. -/
structure Input where
  value : String
  cursor : Nat
deriving DecidableEq, Repr

/-- `Input::new(String::new())`: the input line starts empty with the cursor at
the start. -/
def Input.new : Input := { value := "", cursor := 0 }

/-- Modelled from the spec: `tui_input`'s `Input::value_and_reset` — "cleared
and returned as a value on submission" (§3 InputLine): yields the current text
and the reset (empty, cursor at start) input state. -/
def Input.value_and_reset (i : Input) : String × Input := (i.value, Input.new)

/-- Modelled from the spec: `tui_input`'s `Input::with_value` — replaces the
text and places the cursor at the end of the new value (character count). -/
def Input.with_value (v : String) : Input := { value := v, cursor := v.length }

/-- Key codes of the crossterm events the console dispatches on
(`src/lib.rs`, `SteelApp::handle_key`); every other code is `other`. -/
inductive KeyCode where
  | char (c : Char)
  | enter
  | up
  | down
  | other
deriving DecidableEq, Repr

/-- The one modifier `handle_key` inspects (`KeyModifiers::CONTROL`). -/
structure KeyModifiers where
  control : Bool
deriving DecidableEq, Repr

/-- A crossterm key event as seen by `SteelApp::handle_key`: code, modifiers,
and whether it is a press (`KeyEvent::is_press`). -/
structure KeyEvent where
  code : KeyCode
  modifiers : KeyModifiers
  is_press : Bool
deriving DecidableEq, Repr

/-- Modelled from the spec: the external input-line editor (`tui_input`'s
`handle_event`), "standard text-editing semantics (insertion, deletion, cursor
movement)" (§4.3). Only plain character insertion is modelled; the claims under
verification never depend on this branch's effect on the input line. -/
def Input.handle_event (i : Input) (e : KeyEvent) : Input :=
  match e.code with
  | KeyCode.char c =>
      if e.modifiers.control then i
      else
        { value := i.value.take i.cursor ++ String.singleton c
            ++ i.value.drop i.cursor,
          cursor := i.cursor + 1 }
  | _ => i

/-- The console state of `SteelApp` (`src/lib.rs`), restricted to what the
event handlers touch. `token` / `server_token` are the two
`CancellationToken`s as one-shot boolean flags (`true` = cancelled);
`main_async` (`src/main.rs`) creates `server_token` as a child of `token`, so
`server_token.is_cancelled()` also observes `token`. `history` is the global
`LOGGER` line buffer and `dispatched` the trace of commands forwarded to
`server.command_dispatcher` (observation of the external command sink). -/
structure SteelApp where
  input : Input
  scroll_offset : Nat
  scroll_bottom : Bool
  token : Bool
  server_token : Bool
  history : List Line
  dispatched : List String
deriving DecidableEq, Repr

/-- `server_token.is_cancelled()`: the child token is cancelled when its own
flag is set or the parent `token` is cancelled (`token.child_token()` wiring in
`src/main.rs`). -/
def SteelApp.server_token_cancelled (app : SteelApp) : Bool :=
  app.server_token || app.token

/-- `SteelApp::submit_message` (`src/lib.rs` lines 98-109): take and reset the
input line; if the taken text is empty or the server token is cancelled, do
nothing else; otherwise echo `"> {command}"` into the scrollback (via
`Text::raw`, which splits on newlines) and forward the command to the
dispatcher. -/
def SteelApp.submit_message (app : SteelApp) : SteelApp :=
  let p := app.input.value_and_reset
  let command := p.1
  let app1 := { app with input := p.2 }
  if command.isEmpty || app1.server_token_cancelled then app1
  else
    { app1 with
        history := LineHistory.push app1.history (("> " ++ command).splitOn "\n"),
        dispatched := app1.dispatched ++ [command] }

/-- `SteelApp::scroll_up` (`src/lib.rs`): clear follow-tail and move the scroll
view up one line (`ScrollViewState::scroll_up` saturates at the top). -/
def SteelApp.scroll_up (app : SteelApp) : SteelApp :=
  { app with scroll_bottom := false, scroll_offset := app.scroll_offset - 1 }

/-- `ScrollViewState::scroll_down` as used in `handle_key`: move the offset
down one line (clamped against the content at render time). -/
def SteelApp.scroll_down (app : SteelApp) : SteelApp :=
  { app with scroll_offset := app.scroll_offset + 1 }

/-- `SteelApp::handle_key` (`src/lib.rs` lines 111-139): ignore non-press
events; on Ctrl+C run the two-stage interrupt policy (cancel `server_token`
first, `token` on a second interrupt); then dispatch on the key code — Enter
submits, Up scrolls up, Ctrl+Down re-asserts follow-tail, Down scrolls down,
and anything else goes to the input-line editor. -/
def SteelApp.handle_key (app : SteelApp) (e : KeyEvent) : SteelApp :=
  if !e.is_press then app
  else
    let app1 :=
      if e.code = KeyCode.char 'c' ∧ e.modifiers.control = true then
        if app.server_token_cancelled then { app with token := true }
        else { app with server_token := true }
      else app
    match e.code with
    | KeyCode.enter => app1.submit_message
    | KeyCode.up => app1.scroll_up
    | KeyCode.down =>
        if e.modifiers.control then { app1 with scroll_bottom := true }
        else app1.scroll_down
    | _ => { app1 with input := app1.input.handle_event e }

/-- The `Event::Paste` arm of the event loop (`src/lib.rs` lines 253-262):
take and reset the input line, append the pasted text to the taken value, and
replace the input with `Input::with_value` of the result (cursor at the end). -/
def SteelApp.handle_paste (app : SteelApp) (paste : String) : SteelApp :=
  let p := app.input.value_and_reset
  let value := p.1 ++ paste
  { app with input := Input.with_value value }

/-- A console state with the given input line and everything else at its
startup value (`SteelApp::new`), used to instantiate theorems concretely. -/
def mkApp (inp : Input) : SteelApp :=
  { input := inp, scroll_offset := 0, scroll_bottom := true,
    token := false, server_token := false, history := [], dispatched := [] }

/-- C2: on a Ctrl+C key press, if the server token is not yet cancelled,
handling the key cancels the server token and leaves the application token
untriggered; if the server token is already cancelled, handling the key
cancels the application token (two-stage interrupt, `src/lib.rs` 116-122). -/
theorem interrupt_two_stage (app : SteelApp) (e : KeyEvent)
    (hp : e.is_press = true) (hc : e.code = KeyCode.char 'c')
    (hm : e.modifiers.control = true) :
    (app.server_token_cancelled = false →
      (app.handle_key e).server_token_cancelled = true ∧
      (app.handle_key e).token = false) ∧
    (app.server_token_cancelled = true →
      (app.handle_key e).token = true) := by
  obtain ⟨code, ⟨ctrl⟩, press⟩ := e
  simp only at hp hc hm
  subst hp hc hm
  simp only [SteelApp.handle_key, Bool.not_true, Bool.false_eq_true, if_false,
    and_self, if_true, Bool.true_eq_false]
  cases happ : app.server_token_cancelled with
  | false =>
      have htok : app.token = false := by
        revert happ
        simp [SteelApp.server_token_cancelled]
      simp [SteelApp.server_token_cancelled, Input.handle_event, happ, htok]
  | true =>
      simp [SteelApp.server_token_cancelled, Input.handle_event, happ]

/-- Witness for C2 at a concrete input: Ctrl+C pressed in the startup state
(no token cancelled). -/
theorem interrupt_two_stage_witness :
    ({ code := KeyCode.char 'c', modifiers := { control := true },
        is_press := true } : KeyEvent).is_press = true ∧
    ({ code := KeyCode.char 'c', modifiers := { control := true },
        is_press := true } : KeyEvent).code = KeyCode.char 'c' ∧
    ({ code := KeyCode.char 'c', modifiers := { control := true },
        is_press := true } : KeyEvent).modifiers.control = true ∧
    (((mkApp Input.new).server_token_cancelled = false →
      ((mkApp Input.new).handle_key
          { code := KeyCode.char 'c', modifiers := { control := true },
            is_press := true }).server_token_cancelled = true ∧
      ((mkApp Input.new).handle_key
          { code := KeyCode.char 'c', modifiers := { control := true },
            is_press := true }).token = false) ∧
    ((mkApp Input.new).server_token_cancelled = true →
      ((mkApp Input.new).handle_key
          { code := KeyCode.char 'c', modifiers := { control := true },
            is_press := true }).token = true)) :=
  ⟨rfl, rfl, rfl, interrupt_two_stage (mkApp Input.new) _ rfl rfl rfl⟩

theorem submit_message_empty_preserves (app : SteelApp)
    (hv : app.input.value = "") :
    app.submit_message.history = app.history ∧
    app.submit_message.dispatched = app.dispatched := by
  have he : ("" : String).isEmpty = true := rfl
  simp [SteelApp.submit_message, Input.value_and_reset, hv, he]

theorem handle_key_enter_eq_submit (app : SteelApp) (e : KeyEvent)
    (hp : e.is_press = true) (he : e.code = KeyCode.enter) :
    app.handle_key e = app.submit_message := by
  obtain ⟨code, ⟨ctrl⟩, press⟩ := e
  simp only at hp he
  subst hp he
  simp [SteelApp.handle_key]

/-- C7: handling an Enter key press while the input line is empty appends no
echo line to the scrollback and dispatches no command
(`SteelApp::submit_message` returns early on an empty command). -/
theorem submit_empty_noop (app : SteelApp) (e : KeyEvent)
    (hp : e.is_press = true) (he : e.code = KeyCode.enter)
    (hv : app.input.value = "") :
    (app.handle_key e).history = app.history ∧
    (app.handle_key e).dispatched = app.dispatched := by
  rw [handle_key_enter_eq_submit app e hp he]
  exact submit_message_empty_preserves app hv

/-- Witness for C7 at a concrete input: Enter pressed in the startup state
(empty input line). -/
theorem submit_empty_noop_witness :
    ({ code := KeyCode.enter, modifiers := { control := false },
        is_press := true } : KeyEvent).is_press = true ∧
    ({ code := KeyCode.enter, modifiers := { control := false },
        is_press := true } : KeyEvent).code = KeyCode.enter ∧
    (mkApp Input.new).input.value = "" ∧
    (((mkApp Input.new).handle_key
        { code := KeyCode.enter, modifiers := { control := false },
          is_press := true }).history = (mkApp Input.new).history ∧
      ((mkApp Input.new).handle_key
        { code := KeyCode.enter, modifiers := { control := false },
          is_press := true }).dispatched = (mkApp Input.new).dispatched) :=
  ⟨rfl, rfl, rfl, submit_empty_noop (mkApp Input.new) _ rfl rfl rfl⟩

/-- C9: handling an Enter key press always resets the input line to empty with
the cursor at the start — `value_and_reset` runs before the empty/cancelled
guard in `submit_message`, so the reset happens even when nothing is
dispatched or echoed. -/
theorem submit_message_input_reset (app : SteelApp) :
    app.submit_message.input = Input.new := by
  simp only [SteelApp.submit_message, Input.value_and_reset]
  split <;> rfl

theorem submit_resets_input (app : SteelApp) (e : KeyEvent)
    (hp : e.is_press = true) (he : e.code = KeyCode.enter) :
    (app.handle_key e).input = Input.new := by
  rw [handle_key_enter_eq_submit app e hp he]
  exact submit_message_input_reset app

/-- Witness for C9 at a concrete input: Enter pressed with a non-empty input
line and the cursor in the middle. -/
theorem submit_resets_input_witness :
    ({ code := KeyCode.enter, modifiers := { control := false },
        is_press := true } : KeyEvent).is_press = true ∧
    ({ code := KeyCode.enter, modifiers := { control := false },
        is_press := true } : KeyEvent).code = KeyCode.enter ∧
    ((mkApp { value := "hi", cursor := 1 }).handle_key
        { code := KeyCode.enter, modifiers := { control := false },
          is_press := true }).input = Input.new :=
  ⟨rfl, rfl,
    submit_resets_input (mkApp { value := "hi", cursor := 1 }) _ rfl rfl⟩

/-- C5 counterexample: pasting "X" while the input line is "ab" with the cursor
at offset 0 yields "abX", not the cursor-position insertion
`take 0 ++ "X" ++ drop 0 = "Xab"` the claim describes: the paste arm appends
the pasted text at the end of the line regardless of the cursor. -/
theorem paste_at_cursor_counterexample :
    (SteelApp.handle_paste (mkApp { value := "ab", cursor := 0 }) "X").input.value
        = "abX" ∧
    (SteelApp.handle_paste (mkApp { value := "ab", cursor := 0 }) "X").input.value
        ≠ ("ab".take 0) ++ "X" ++ ("ab".drop 0) := by
  exact ⟨rfl, by decide⟩

/-- C5 amended: for every paste event, the pasted text is appended at the end
of the current input line — the existing content is preserved as a prefix, not
replaced — and the cursor moves to the end of the combined line. -/
theorem paste_appends_at_end (app : SteelApp) (paste : String) :
    (app.handle_paste paste).input.value = app.input.value ++ paste ∧
    (app.handle_paste paste).input.cursor
      = (app.input.value ++ paste).length :=
  ⟨rfl, rfl⟩

/-- Modelled from the spec: the external `ansi_to_tui` decoder (`IntoText`) as
contracted in §4.1/§7(d) — a total decoding of formatted text into lines where
"malformed style-escape input is tolerated by falling back to plain text for
the offending segment (never fails the whole append)". With styles abstracted
away (see `Line`), decoding is splitting the text into its lines. -/
def into_text (s : String) : List Line := s.splitOn "\n"

/-- Outcome of `TuiLoggerWriter::write`: the updated `LOGGER` buffer, whether a
`REDRAW` wake was signalled, and the returned `io::Result<usize>`. -/
structure WriteOutcome where
  logger : List Line
  redraw : Bool
  ret : Except String Nat
deriving Repr

/-- `TuiLoggerWriter::write` (`src/logger/mod.rs` lines 22-34). The input is
the text after `String::from_utf8_lossy` (total — invalid UTF-8 has already
been degraded to replacement characters); the writer then rewrites the escaped
`\x1b` form to the real escape byte, returns `Ok(0)` on empty input, and
otherwise decodes, pushes into the buffer, wakes the renderer and returns
`Ok(len)`. -/
def TuiLoggerWriter.write (logger : List Line) (buf : String) : WriteOutcome :=
  let buf2 := buf.replace "\\x1b" "\x1b"
  if buf2.isEmpty then { logger := logger, redraw := false, ret := Except.ok 0 }
  else
    { logger := LineHistory.push logger (into_text buf2), redraw := true,
      ret := Except.ok buf2.length }

/-- C3: the log ingestion writer never fails — for every input (malformed
style escapes included, which the decoder degrades to plain text) the write
returns `Ok`. -/
theorem write_never_fails (logger : List Line) (buf : String) :
    ∃ n, (TuiLoggerWriter.write logger buf).ret = Except.ok n := by
  unfold TuiLoggerWriter.write
  dsimp only
  split
  · exact ⟨0, rfl⟩
  · exact ⟨_, rfl⟩

/-- A world as the shutdown drain observes it: `dirtyChunks` is the number of
dirty chunks its `cleanup` persists (modelled from the spec contract
"persist-dirty(subsystem) → count"), `players` its current player list. -/
structure World where
  dirtyChunks : Nat
  players : List String
deriving DecidableEq, Repr

/-- The collaborator operations of the shutdown drain of
`SteelApp::start_server`, in the order the source performs them. -/
inductive DrainEvent where
  | waitPendingTasks
  | closeDrainWorld (idx : Nat)
  | savedChunks (total : Nat)
  | savedPlayers (count : Nat)
  | savePlayersFailed (err : String)
  | finalNotice
deriving DecidableEq, Repr

/-- The drain sequence of `SteelApp::start_server` (`src/lib.rs` lines
183-221), run once `steel_server.start` returns (i.e. once the server token is
cancelled), as the trace of collaborator operations: close and await the task
tracker; close and drain each world's chunk task tracker; persist dirty chunks
accumulating a running total (`World::cleanup`); persist all players in one
batch via the external `player_data_storage.save_all` (`save_all` here),
reporting the count or the failure; then emit the final "Press Ctrl+C again to
exit" notice. -/
def start_server (worlds : List World)
    (save_all : List String → Except String Nat) : List DrainEvent :=
  let events := [DrainEvent.waitPendingTasks]
  let events := events ++ (List.range worlds.length).map DrainEvent.closeDrainWorld
  let total_saved := worlds.foldl (fun acc w => acc + w.dirtyChunks) 0
  let events := events ++ [DrainEvent.savedChunks total_saved]
  let players_to_save := worlds.foldl (fun acc w => acc ++ w.players) []
  let events := events ++
    [match save_all players_to_save with
      | Except.ok count => DrainEvent.savedPlayers count
      | Except.error e => DrainEvent.savePlayersFailed e]
  events ++ [DrainEvent.finalNotice]

/-- C4: the shutdown drain runs its collaborator operations in the fixed order
(1) wait for scheduled tasks, (2) close and drain each world's task queue,
(3) persist dirty chunks reporting the accumulated total, (4) persist all
players in one batch reporting count or failure, (5) emit the final notice;
and when step 4 fails, the failure is recorded and the final notice is still
the last step. -/
theorem start_server_drain_order (worlds : List World)
    (save_all : List String → Except String Nat) :
    start_server worlds save_all
      = [DrainEvent.waitPendingTasks]
          ++ (List.range worlds.length).map DrainEvent.closeDrainWorld
          ++ [DrainEvent.savedChunks
                (worlds.foldl (fun acc w => acc + w.dirtyChunks) 0)]
          ++ [match save_all (worlds.foldl (fun acc w => acc ++ w.players) []) with
              | Except.ok count => DrainEvent.savedPlayers count
              | Except.error e => DrainEvent.savePlayersFailed e]
          ++ [DrainEvent.finalNotice] ∧
    (∀ err, save_all (worlds.foldl (fun acc w => acc ++ w.players) [])
        = Except.error err →
      DrainEvent.savePlayersFailed err ∈ start_server worlds save_all ∧
      (start_server worlds save_all).getLast? = some DrainEvent.finalNotice) := by
  constructor
  · simp [start_server]
  · intro err herr
    constructor
    · simp [start_server, herr]
    · simp only [start_server]
      exact List.getLast?_concat _

/-- Witness for C4 at a concrete input: one world with three dirty chunks and
one player, with a batch persistence that fails; the failure is recorded and
the final notice still closes the drain. -/
theorem start_server_drain_order_witness :
    (fun _ : List String => (Except.error "disk" : Except String Nat))
        (([({ dirtyChunks := 3, players := ["p"] } : World)]).foldl
          (fun acc w => acc ++ w.players) [])
      = Except.error "disk" ∧
    (DrainEvent.savePlayersFailed "disk"
        ∈ start_server [{ dirtyChunks := 3, players := ["p"] }]
            (fun _ => Except.error "disk") ∧
      (start_server [{ dirtyChunks := 3, players := ["p"] }]
          (fun _ => Except.error "disk")).getLast?
        = some DrainEvent.finalNotice) :=
  ⟨rfl,
    (start_server_drain_order [{ dirtyChunks := 3, players := ["p"] }]
        (fun _ => Except.error "disk")).2 "disk" rfl⟩

/-- A ratatui `Rect` (the render area), in cells. -/
structure Rect where
  x : Nat
  y : Nat
  width : Nat
  height : Nat
deriving DecidableEq, Repr

/-- A ratatui `Position` (the cursor position set after rendering). -/
structure Position where
  x : Nat
  y : Nat
deriving DecidableEq, Repr

/-- `Layout::vertical([Constraint::Fill(1), Constraint::Length(1)]).areas(area)`
(ratatui layout collaborator): the one-line input region is carved from the
bottom (clipped by the area height), the text region fills the rest above. -/
def layout_vertical (area : Rect) : Rect × Rect :=
  let input_height := min 1 area.height
  let text_height := area.height - input_height
  ({ x := area.x, y := area.y, width := area.width, height := text_height },
   { x := area.x, y := area.y + text_height, width := area.width,
     height := input_height })

/-- Rust `u16` subtraction with its overflow check: `none` models the
debug-build panic on underflow (a release build wraps to `2^16 - b + a`
instead — either way the result is not the intended width). -/
def checked_sub (a b : Nat) : Option Nat :=
  if b ≤ a then some (a - b) else none

/-- The `Widget::render` implementation for `&mut SteelApp` (`src/lib.rs`
lines 279-311): split the area into text and input regions, build the scroll
content size as `text_area.width - 1` (u16) by the number of buffer lines,
force follow-tail when the visible window extends past the content bottom,
scroll to the bottom when follow-tail is set (`scroll_to_bottom`, modelled
from the spec: pins the offset to the newest content), and place the cursor at
the input row, two cells in plus the input cursor offset. Returns `none` when
the u16 width computation underflows. -/
def SteelApp.render (app : SteelApp) (area : Rect) :
    Option (SteelApp × Position) :=
  let pair := layout_vertical area
  let text_area := pair.1
  let input_area := pair.2
  match checked_sub text_area.width 1 with
  | none => none
  | some content_width =>
    let content_size : Nat × Nat := (content_width, app.history.length)
    let app1 :=
      if app.scroll_offset + text_area.height > content_size.2 then
        { app with scroll_bottom := true }
      else app
    let app2 :=
      if app1.scroll_bottom then
        { app1 with scroll_offset := content_size.2 - text_area.height }
      else app1
    some (app2, { x := app2.input.cursor + 2, y := input_area.y })

/-- C8 fails on the code: rendering into a zero-width area underflows the u16
computation `text_area.width - 1` (content size of the scroll view), so the
render step does not degenerate to drawing nothing there — it panics in debug
builds (and in release builds wraps to a 65535-wide content buffer). A
one-cell-wider area renders fine, so zero width is exactly the failing case. -/
theorem render_zero_width_fails :
    SteelApp.render (mkApp Input.new)
        { x := 0, y := 0, width := 0, height := 5 } = none ∧
    (SteelApp.render (mkApp Input.new)
        { x := 0, y := 0, width := 1, height := 5 }).isSome = true := by
  constructor
  · rfl
  · rfl
